import Mathlib

/-
Verification of the streaming conversational session manager of the
AIChatbotOnline repository.

The development shallowly embeds the chat API routes:
  * the plain chat route (helper functions and POST and GET handlers of
    src/unnamed/part_002),
  * the RAG chat route (src/src/app/api/chat_08_rag/route.ts),
  * the agent chat route (src/unnamed/part_004),
as pure functions over explicit session state, with the external
collaborators (model stream, database writes, vector retrieval) supplied
as explicit outcome parameters.
-/

namespace AIChat

/-- Role of a LangChain message (HumanMessage, AIMessage, SystemMessage). -/
inductive LCRole where
  | human
  | ai
  | system
  deriving DecidableEq, Repr

/-- One LangChain chat message: a role together with its textual content. -/
structure LCMessage where
  role : LCRole
  content : String
  deriving DecidableEq, Repr

/-- One part of a UI message, as in the ai-sdk UIMessage parts array. -/
structure UIPart where
  ptype : String
  text : String
  deriving DecidableEq, Repr

/-- A UIMessage from the request body: role string plus parts array. -/
structure UIMessage where
  role : String
  parts : List UIPart
  deriving DecidableEq, Repr

/-- The parsed POST request body: messages, optional sessionId, optional userId. -/
structure ChatRequest where
  messages : List UIMessage
  sessionId : Option String
  userId : Option String
  deriving DecidableEq, Repr

/-- JS truthiness test for an optional string: null, undefined and the empty
string are falsy. -/
def jsFalsy (o : Option String) : Bool :=
  match o with
  | none => true
  | some s => decide (s = "")

/-- The first n characters of a string, as JS s.slice(0, n). -/
def strTake (s : String) (n : Nat) : String :=
  String.mk (s.data.take n)

/-- Decides whether the first character list is a leading segment of the second. -/
def charsLeading : List Char → List Char → Bool
  | [], _ => true
  | _ :: _, [] => false
  | p :: ps, c :: cs => (p == c) && charsLeading ps cs

/-- Decides whether the first character list occurs contiguously in the second. -/
def charsInside : List Char → List Char → Bool
  | pat, [] => charsLeading pat []
  | pat, c :: rest => charsLeading pat (c :: rest) || charsInside pat rest

/-- Substring test, as JS s.includes(pat). -/
def strContains (s pat : String) : Bool :=
  charsInside pat.data s.data

/-- Token estimate of a message sequence: the sum of the per-message counts
of a given counter (the routes use a tiktoken-based counter, an external
collaborator abstracted here as an arbitrary function). -/
def estimate (c : LCMessage → Nat) (l : List LCMessage) : Nat :=
  (l.map c).sum

/-- Modelled from the spec: the Context Window Trimmer (the routes delegate
the windowing to the trimMessages library call with strategy last; the
library implementation is not part of this repository).  Scan the history
from the most recent turn backward, accumulating the token estimate, and
include a turn only while the running total stays within the budget.  The
input list is the reversed history (most recent first). -/
def scanBack (c : LCMessage → Nat) (budget : Nat) : List LCMessage → Nat → List LCMessage
  | [], _ => []
  | m :: older, used =>
    if used + c m ≤ budget then m :: scanBack c budget older (used + c m)
    else []

/-- Modelled from the spec: trim(history, budget) returns the windowed
suffix together with the overflow prefix (that turn and everything older
once the budget is exceeded). -/
def trim (c : LCMessage → Nat) (budget : Nat) (history : List LCMessage) :
    List LCMessage × List LCMessage :=
  let windowed := (scanBack c budget history.reverse 0).reverse
  (windowed, history.take (history.length - windowed.length))

/-- Outcome of iterating the model token stream: completion with the emitted
chunks, or an error thrown after some chunks were emitted. -/
inductive StreamOutcome where
  | ok (chunks : List String)
  | fail (emitted : List String)
  deriving DecidableEq, Repr

/-- Observable side effects of one request, in the order they are performed. -/
inductive Effect where
  | sessionInsert (title : String) (userId : String)
  | modelStream
  | appendHuman (content : String)
  | appendAI (content : String)
  | overflowSummarizerCall
  | summaryModelCall
  | summaryWrite (s : String)
  deriving DecidableEq, Repr

/-- The result the caller of a POST route observes. -/
inductive PostResult where
  | serverError (details : String)
  | badRequest (msg : String)
  | invokeFailed
  | streamFailed (emitted : String)
  | completed (text : String)
  deriving DecidableEq, Repr

/-- Durable per-session state: the chat_messages rows for the session
(in insertion order) and the chat_sessions summary column. -/
structure SessionState where
  history : List LCMessage
  summary : String
  deriving DecidableEq, Repr

/-- The full outcome of one POST request against the plain chat route. -/
structure PostOutcome where
  result : PostResult
  state : SessionState
  effects : List Effect
  deriving DecidableEq, Repr

/-- Text of the first part of type text of a UIMessage, or the empty string
(msg.parts.find(p => p.type === 'text')?.text ?? ''). -/
def partText (m : UIMessage) : String :=
  match m.parts.find? (fun p => decide (p.ptype = "text")) with
  | some p => p.text
  | none => ""

/-- mapUIMessagesToLangChainMessages of part_002: user maps to HumanMessage,
assistant to AIMessage, anything else to HumanMessage. -/
def mapUIMessage (m : UIMessage) : LCMessage :=
  if m.role = "user" then ⟨LCRole.human, partText m⟩
  else if m.role = "assistant" then ⟨LCRole.ai, partText m⟩
  else ⟨LCRole.human, partText m⟩

/-- Title derivation of createNewSession in part_002: the first 50
characters of the first user message head part when it is a text part,
and the default otherwise. -/
def titleForNewSession (messages : List UIMessage) : String :=
  match messages.find? (fun m => decide (m.role = "user")) with
  | none => "New Chat"
  | some fm =>
    match fm.parts with
    | [] => "New Chat"
    | p :: _ => if p.ptype = "text" then strTake p.text 50 else "New Chat"

/-- Accumulation of the streamed chunks in part_002 and part_004: each
non-empty chunk is concatenated onto the running assistant text. -/
def accumulateChunks (chunks : List String) : String :=
  chunks.foldl (fun acc c => if 0 < c.length then acc ++ c else acc) ""

/-- The last HumanMessage of a message list. -/
def lastHuman (l : List LCMessage) : Option LCMessage :=
  (l.filter (fun m => decide (m.role = LCRole.human))).getLast?

/-- Index of the last HumanMessage of a message list
(fullHistory.lastIndexOf(lastUserMessage) in part_002). -/
def lastHumanIdx (l : List LCMessage) : Option Nat :=
  ((l.enum.filter (fun p => decide (p.2.role = LCRole.human))).getLast?).map (fun p => p.1)

/-- External outcomes for one part_002 POST request: the token counter used
by trimming, whether chain.stream itself succeeds, the stream outcome, and
the outcomes of the post-stream database and summarizer calls. -/
structure Part002Env where
  counter : LCMessage → Nat
  invokeOk : Bool
  streamOutcome : StreamOutcome
  addMessagesOk : Bool
  summarizerResp : Option String
  summaryWriteOk : Bool

/-- The full history assembled by part_002: for a new session, the mapped
request messages; otherwise the stored history plus the latest human
message of the request (when one exists). -/
def fullHistoryChat (isNewSession : Bool) (req : ChatRequest) (st : SessionState) :
    List LCMessage :=
  let newMessages := req.messages.map mapUIMessage
  if isNewSession then newMessages
  else
    match (newMessages.filter (fun m => decide (m.role = LCRole.human))).getLast? with
    | some latest => st.history ++ [latest]
    | none => st.history

/-- The input text part_002 sends to the model: the content of the last
human message of the assembled history. -/
def chatInputOf (isNewSession : Bool) (req : ChatRequest) (st : SessionState) : String :=
  match lastHuman (fullHistoryChat isNewSession req st) with
  | some m => m.content
  | none => ""

/-- The invocation, streaming and post-stream persistence part of the
part_002 POST handler (Steps 6 onward): chain.stream, chunk accumulation,
and — only after the stream completes with non-empty accumulated text —
the joint write of the user and assistant turns followed by the
best-effort summary refresh, both failures swallowed. -/
def chatStreamPhase (env : Part002Env) (st : SessionState) (input : String)
    (eff0 : List Effect) : PostOutcome :=
  if env.invokeOk = false then
    ⟨PostResult.invokeFailed, st, eff0 ++ [Effect.modelStream]⟩
  else
    match env.streamOutcome with
    | StreamOutcome.fail emitted =>
      ⟨PostResult.streamFailed (accumulateChunks emitted), st, eff0 ++ [Effect.modelStream]⟩
    | StreamOutcome.ok chunks =>
      let assistantText := accumulateChunks chunks
      if assistantText = "" then
        ⟨PostResult.completed (""), st, eff0 ++ [Effect.modelStream]⟩
      else if env.addMessagesOk = false then
        ⟨PostResult.completed assistantText, st, eff0 ++ [Effect.modelStream]⟩
      else
        let st1 : SessionState :=
          ⟨st.history ++ [⟨LCRole.human, input⟩, ⟨LCRole.ai, assistantText⟩], st.summary⟩
        let eff1 := eff0 ++
          [Effect.modelStream, Effect.appendHuman input, Effect.appendAI assistantText]
        match env.summarizerResp with
        | none =>
          ⟨PostResult.completed assistantText, st1, eff1 ++ [Effect.summaryModelCall]⟩
        | some newSum =>
          if env.summaryWriteOk then
            ⟨PostResult.completed assistantText, ⟨st1.history, newSum⟩,
              eff1 ++ [Effect.summaryModelCall, Effect.summaryWrite newSum]⟩
          else
            ⟨PostResult.completed assistantText, st1, eff1 ++ [Effect.summaryModelCall]⟩

/-- The body of the part_002 POST handler after session resolution:
input extraction, trimming, then the stream phase. -/
def runChatTurn (env : Part002Env) (req : ChatRequest) (st : SessionState)
    (isNewSession : Bool) (eff0 : List Effect) : PostOutcome :=
  let fullHistory := fullHistoryChat isNewSession req st
  let input := chatInputOf isNewSession req st
  if input = "" then ⟨PostResult.badRequest ("No valid user input found."), st, eff0⟩
  else
    let historyWithoutLastInput :=
      match lastHumanIdx fullHistory with
      | some i => fullHistory.take i
      | none => fullHistory
    let recentWindow :=
      if 0 < historyWithoutLastInput.length
      then (trim env.counter 10000 historyWithoutLastInput).1
      else []
    let _recentWindowFixed :=
      match recentWindow with
      | m :: rest => if m.role = LCRole.ai then rest else recentWindow
      | [] => ([] : List LCMessage)
    chatStreamPhase env st input eff0

/-- The part_002 POST handler: session resolution (a missing or empty
session id makes the request a new session, which requires a truthy user
id and inserts a session row), then the chat turn. -/
def POST_chat (env : Part002Env) (req : ChatRequest) (st : SessionState) : PostOutcome :=
  if jsFalsy req.sessionId then
    if jsFalsy req.userId then
      ⟨PostResult.serverError ("User ID is required for new sessions"), st, []⟩
    else
      runChatTurn env req st true
        [Effect.sessionInsert (titleForNewSession req.messages) (req.userId.getD (""))]
  else
    runChatTurn env req st false []

/-- One scored document returned by the vector store
(similaritySearchWithScore).  The JS relevance score is a float rendered
as a percentage with one decimal; it is abstracted here as tenths of a
percent, which the RAG claims do not depend on. -/
structure ScoredDoc where
  pageContent : String
  filename : Option String
  dtype : Option String
  scorePct10 : Nat
  deriving DecidableEq, Repr

/-- JS a || b on an optional string: null, undefined and the empty string
fall through to the default. -/
def jsOr (o : Option String) (d : String) : String :=
  match o with
  | some s => if s = "" then d else s
  | none => d

/-- Rendering of one retrieved document in searchDocuments of the RAG route. -/
def formatDoc (d : ScoredDoc) : String :=
  "ไฟล์: " ++ jsOr d.filename ("ไม่ทราบชื่อไฟล์") ++ " (" ++
    (jsOr d.dtype ("ไม่ทราบประเภท")).toUpper ++ ")\n" ++
  "เนื้อหา: " ++ d.pageContent ++ "\n" ++
  "ความเกี่ยวข้อง: " ++ toString (d.scorePct10 / 10) ++ "." ++
    toString (d.scorePct10 % 10) ++ "%"

/-- searchDocuments of the RAG route, over the outcome of the vector store
call: an empty result is reported as a no-documents message, a non-empty
result is formatted and joined, and a thrown error is reclassified (a
connection, network or timeout error becomes the store-unreachable
message) and rethrown. -/
def searchDocuments (query : String) (outcome : Except String (List ScoredDoc)) :
    Except String String :=
  match outcome with
  | Except.error msg =>
    if strContains msg ("connection") || strContains msg ("network")
        || strContains msg ("timeout") then
      Except.error ("ไม่สามารถเข้าถึงระบบค้นหาเอกสารได้ในขณะนี้")
    else
      Except.error ("เกิดข้อผิดพลาดในการค้นหาเอกสาร: " ++ msg)
  | Except.ok docs =>
    if docs.isEmpty then
      Except.ok ("ไม่พบเอกสารที่เกี่ยวข้องกับ \"" ++ query ++ "\" ในระบบ")
    else
      Except.ok (String.intercalate ("\n\n---\n\n") (docs.map formatDoc))

/-- The degraded placeholder the RAG route substitutes when searchDocuments
throws. -/
def degradedPlaceholder : String := "ไม่สามารถเข้าถึงระบบค้นหาเอกสารได้ในขณะนี้"

/-- The context slot of the RAG prompt: the searchDocuments result, or the
degraded placeholder when the call threw (the catch around Step 9). -/
def documentContextOf (query : String) (outcome : Except String (List ScoredDoc)) : String :=
  match searchDocuments query outcome with
  | Except.ok s => s
  | Except.error _ => degradedPlaceholder

/-- The marker substring the RAG stream loop scans for. -/
def searchErrorMarker : String := "ไม่สามารถเข้าถึงระบบค้นหาเอกสารได้"

/-- The friendly replacement message of the RAG stream loop. -/
def friendlyMessage : String :=
  "ขออภัยครับ ขณะนี้ไม่สามารถเข้าถึงระบบค้นหาเอกสารได้ กรุณาลองใหม่อีกครั้งในภายหลัง"

/-- The RAG stream loop: accumulate chunks; when a chunk or the running
text contains the search-error marker, replace the accumulated text with
the friendly message and raise the hasSearchError flag. -/
def ragConsume (chunks : List String) : String × Bool :=
  chunks.foldl
    (fun acc chunk =>
      let t := acc.1 ++ chunk
      if strContains chunk searchErrorMarker || strContains t searchErrorMarker then
        (friendlyMessage, true)
      else (t, acc.2))
    (("" : String), false)

/-- External outcomes for one RAG POST request. -/
structure RagEnv where
  counter : LCMessage → Nat
  retrieval : Except String (List ScoredDoc)
  overflowSummarizerResp : Option String
  invokeOk : Bool
  streamOutcome : StreamOutcome
  saveUserOk : Bool
  saveAIOk : Bool
  summarizerResp : Option String
  summaryWriteOk : Bool

/-- The full outcome of one POST request against the RAG route, including
the context slot the prompt was invoked with (when invocation happened). -/
structure RagOutcome where
  result : PostResult
  state : SessionState
  effects : List Effect
  contextSlot : Option String
  deriving DecidableEq, Repr

/-- Title derivation of the RAG route: the first 50 characters of the text
part of the first user message, with an ellipsis appended when the text is
longer than 50 characters. -/
def ragTitle (messages : List UIMessage) : String :=
  match messages.find? (fun m => decide (m.role = "user")) with
  | none => "New Chat"
  | some fm =>
    if 0 < fm.parts.length then
      match fm.parts.find? (fun p => decide (p.ptype = "text")) with
      | some tp => strTake tp.text 50 ++ (if 50 < tp.text.length then "..." else "")
      | none => "New Chat"
    else "New Chat"

/-- The input text the RAG route extracts from the request: the text part
of the last user message. -/
def ragInput (req : ChatRequest) : String :=
  match (req.messages.filter (fun m => decide (m.role = "user"))).getLast? with
  | some m =>
    (match m.parts.find? (fun p => decide (p.ptype = "text")) with
     | some tp => tp.text
     | none => "")
  | none => ""

/-- The invocation, streaming and persistence part of the RAG POST handler
(Steps 9 onward): ragChain.stream over the prompt whose context slot is
the supplied document context, the pre-consumption user-turn write (its
failure disables further saving), stream consumption with the
search-error-marker replacement, and the post-stream assistant-turn write
and summary update, whose failures are swallowed. -/
def ragStreamPhase (env : RagEnv) (st : SessionState) (input : String)
    (eff1 : List Effect) (documentContext : String) : RagOutcome :=
  if env.invokeOk = false then
    ⟨PostResult.invokeFailed, st, eff1, some documentContext⟩
  else
    let eff2 := eff1 ++ [Effect.modelStream]
    let canSave := env.saveUserOk
    let st1 : SessionState :=
      if canSave then ⟨st.history ++ [⟨LCRole.human, input⟩], st.summary⟩ else st
    let eff3 := if canSave then eff2 ++ [Effect.appendHuman input] else eff2
    match env.streamOutcome with
    | StreamOutcome.fail emitted =>
      ⟨PostResult.streamFailed ((ragConsume emitted).1), st1, eff3, some documentContext⟩
    | StreamOutcome.ok chunks =>
      let assistantText := (ragConsume chunks).1
      let hasSearchError := (ragConsume chunks).2
      if assistantText = "" then
        ⟨PostResult.completed (""), st1, eff3, some documentContext⟩
      else if hasSearchError then
        ⟨PostResult.completed assistantText, st1, eff3, some documentContext⟩
      else if canSave = false then
        ⟨PostResult.completed assistantText, st1, eff3, some documentContext⟩
      else if env.saveAIOk = false then
        ⟨PostResult.completed assistantText, st1, eff3, some documentContext⟩
      else
        let st2 : SessionState := ⟨st1.history ++ [⟨LCRole.ai, assistantText⟩], st1.summary⟩
        let eff4 := eff3 ++ [Effect.appendAI assistantText, Effect.summaryModelCall]
        match env.summarizerResp with
        | none => ⟨PostResult.completed assistantText, st2, eff4, some documentContext⟩
        | some newSum =>
          if env.summaryWriteOk then
            ⟨PostResult.completed assistantText, ⟨st2.history, newSum⟩,
              eff4 ++ [Effect.summaryWrite newSum], some documentContext⟩
          else
            ⟨PostResult.completed assistantText, st2, eff4, some documentContext⟩

/-- The body of the RAG POST handler after session resolution: summary
load, input extraction, trimming with overflow summarization for existing
sessions, retrieval with the degraded-placeholder catch, then the stream
phase. -/
def ragOverflow (env : RagEnv) (isExistingSession : Bool) (st : SessionState) :
    List LCMessage :=
  if isExistingSession && decide (0 < st.history.length)
  then (trim env.counter 3000 st.history).2 else []

/-- The overflow-summarizer model call of the RAG route: performed exactly
when the overflow set is non-empty. -/
def ragOverflowEffects (env : RagEnv) (isExistingSession : Bool) (st : SessionState) :
    List Effect :=
  if 0 < (ragOverflow env isExistingSession st).length
  then [Effect.overflowSummarizerCall] else []

def ragTurn (env : RagEnv) (req : ChatRequest) (st : SessionState)
    (isExistingSession : Bool) (eff0 : List Effect) : RagOutcome :=
  let fullHistory := st.history
  let input := ragInput req
  if input = "" then ⟨PostResult.badRequest ("No valid user input found."), st, eff0, none⟩
  else
    let doTrim := isExistingSession && decide (0 < fullHistory.length)
    let trimmedWindow := if doTrim then (trim env.counter 3000 fullHistory).1 else []
    let overflow := ragOverflow env isExistingSession st
    let _recentWindowWithoutCurrentInput :=
      trimmedWindow.filter
        (fun m => !(decide (m.role = LCRole.human) && decide (m.content = input)))
    let effOv : List Effect := ragOverflowEffects env isExistingSession st
    let overflowSummary :=
      if 0 < overflow.length then
        match env.overflowSummarizerResp with
        | some s => s
        | none => ""
      else ""
    let _summaryForThisTurn :=
      String.intercalate ("\n")
        (([st.summary, overflowSummary].filter (fun s => !(decide (s = "")))))
    let documentContext := documentContextOf input env.retrieval
    ragStreamPhase env st input (eff0 ++ effOv) documentContext

/-- The RAG POST handler: session resolution (a falsy session id requires a
truthy user id and inserts a session row; trimming later only happens when
the request carried a truthy session id), then the RAG turn. -/
def POST_rag (env : RagEnv) (req : ChatRequest) (st : SessionState) : RagOutcome :=
  if jsFalsy req.sessionId then
    if jsFalsy req.userId then
      ⟨PostResult.serverError ("User ID is required"), st, [], none⟩
    else
      ragTurn env req st false
        [Effect.sessionInsert (ragTitle req.messages) (req.userId.getD (""))]
  else
    ragTurn env req st true []

/-- A client message of part_004 (role, content, optional parts). -/
structure ClientMessage where
  role : String
  content : String
  parts : List UIPart
  deriving DecidableEq, Repr

/-- External outcomes for one part_004 POST request. -/
structure AgentEnv where
  saveUserOk : Bool
  streamOutcome : StreamOutcome
  saveAIOk : Bool

/-- The input text part_004 extracts: the content of the last user message,
overridden by its text part when a parts array is present. -/
def agentInput (messages : List ClientMessage) : String :=
  match (messages.filter (fun m => decide (m.role = "user"))).getLast? with
  | none => ""
  | some m =>
    if 0 < m.parts.length then
      match m.parts.find? (fun p => decide (p.ptype = "text")) with
      | some tp => tp.text
      | none => m.content
    else m.content

/-- The part_004 POST handler: input extraction, the pre-invocation
user-turn write (not wrapped in a catch, so its failure aborts the
request), agent streaming, and the post-stream assistant-turn write (fire
and forget, its failure swallowed). -/
def POST_agent (env : AgentEnv) (messages : List ClientMessage) (st : List LCMessage) :
    PostResult × List LCMessage × List Effect :=
  let inputContent := agentInput messages
  if inputContent = "" then (PostResult.badRequest ("No input"), st, [])
  else if env.saveUserOk = false then
    (PostResult.serverError ("failed to append the user turn"), st, [])
  else
    let st1 := st ++ [⟨LCRole.human, inputContent⟩]
    let eff1 := [Effect.appendHuman inputContent, Effect.modelStream]
    match env.streamOutcome with
    | StreamOutcome.fail emitted =>
      (PostResult.streamFailed (accumulateChunks emitted), st1, eff1)
    | StreamOutcome.ok chunks =>
      let fullAiResponse := accumulateChunks chunks
      if fullAiResponse = "" then (PostResult.completed (""), st1, eff1)
      else if env.saveAIOk then
        (PostResult.completed fullAiResponse, st1 ++ [⟨LCRole.ai, fullAiResponse⟩],
          eff1 ++ [Effect.appendAI fullAiResponse])
      else (PostResult.completed fullAiResponse, st1, eff1)

/-- One chat_messages row as the GET handler reads it: the session id, the
message type discriminator (message->>'type'), the optional content, text
and message fields of the stored JSON payload, and the created_at
timestamp. -/
structure MessageRow where
  sessionId : String
  msgType : String
  content : Option String
  text : Option String
  message : Option String
  createdAt : Nat
  deriving DecidableEq, Repr

/-- The role string the GET handler assigns a stored message type: the type
ai maps to assistant, human maps to user, and any other type keeps the
user default. -/
def roleOfType (t : String) : String :=
  if t = "ai" then "assistant"
  else if t = "human" then "user"
  else "user"

/-- The content of a stored row (data.content || data.text || data.message || ''). -/
def rowContent (r : MessageRow) : String :=
  jsOr r.content (jsOr r.text (jsOr r.message ("")))

/-- One message of the GET history response. -/
structure HistMessage where
  id : String
  role : String
  content : String
  createdAt : Nat
  deriving DecidableEq, Repr

/-- The mapping of one stored row at position i to a response message. -/
def mapRow (i : Nat) (r : MessageRow) : HistMessage :=
  ⟨"history-" ++ toString i, roleOfType r.msgType, rowContent r, r.createdAt⟩

/-- Order of rows by created_at. -/
def rowLe (a b : MessageRow) : Prop := a.createdAt ≤ b.createdAt

instance : DecidableRel rowLe := fun a b => Nat.decLe a.createdAt b.createdAt

instance : IsTotal MessageRow rowLe := ⟨fun a b => Nat.le_total a.createdAt b.createdAt⟩

instance : IsTrans MessageRow rowLe := ⟨fun _ _ _ h h2 => Nat.le_trans h h2⟩

/-- The SELECT of the GET handler: the rows of the session, ordered
ascending by created_at. -/
def queryRows (db : List MessageRow) (sid : String) : List MessageRow :=
  List.insertionSort rowLe (db.filter (fun r => decide (r.sessionId = sid)))

/-- The row-to-response mapping with its running index. -/
def renderRows : Nat → List MessageRow → List HistMessage
  | _, [] => []
  | i, r :: rest => mapRow i r :: renderRows (i + 1) rest

/-- The messages array of the GET history response for a session id. -/
def historyMessages (db : List MessageRow) (sid : String) : List HistMessage :=
  renderRows 0 (queryRows db sid)

/-- The GET history handler: a missing session id is a 400 error; otherwise
the mapped, ordered rows are returned with status 200. -/
def getHistory (db : List MessageRow) (sessionId : Option String) :
    Except Nat (List HistMessage) :=
  match sessionId with
  | none => Except.error 400
  | some sid => Except.ok (historyMessages db sid)

/-- A trivially succeeding environment for the plain chat route. -/
def envChat0 : Part002Env :=
  ⟨fun _ => 0, true, StreamOutcome.ok [], true, none, true⟩

/-- A trivially succeeding environment for the RAG route. -/
def envRag0 : RagEnv :=
  ⟨fun _ => 0, Except.ok [], none, true, StreamOutcome.ok [], true, true, none, true⟩

/-- A request with no session id and no user id. -/
def reqNoIds : ChatRequest := ⟨[], none, none⟩

/-- An empty session state. -/
def stEmpty : SessionState := ⟨[], ""⟩

/-- A 51-character user text. -/
def longText : String := "aaaaaaaaaaaaaaaaaaaaaaaaaaaaaaaaaaaaaaaaaaaaaaaaaaa"

/-- A one-row table owned by another session. -/
def dbOneRow : List MessageRow := [⟨"a", "ai", some ("hi"), none, none, 5⟩]

/-- A stored row whose type is neither ai nor human. -/
def rowTool : MessageRow := ⟨"s1", "tool", some ("x"), none, none, 0⟩

/-- A request against an existing session carrying one user message. -/
def reqExisting : ChatRequest := ⟨[⟨"user", [⟨"text", "Hello"⟩]⟩], some ("s1"), none⟩

/-- A session state with an empty history and a non-empty stored summary. -/
def stS0 : SessionState := ⟨[], "S0"⟩

/-- A RAG environment with a fully succeeding exchange whose summarizer
returns a fresh summary. -/
def envRagC3 : RagEnv :=
  ⟨fun _ => 0, Except.ok [], none, true, StreamOutcome.ok [("Hi")], true, true,
    some ("S1"), true⟩

/-- An environment for the plain chat route whose model stream fails
before emitting any token. -/
def envChatFail : Part002Env :=
  ⟨fun _ => 0, true, StreamOutcome.fail [], true, none, true⟩

/-- A RAG environment whose model stream fails before any token. -/
def envRagFail : RagEnv :=
  ⟨fun _ => 0, Except.ok [], none, true, StreamOutcome.fail [], true, true, none, true⟩

/-- A RAG environment whose vector-store call throws a network error. -/
def envRagErr : RagEnv :=
  ⟨fun _ => 0, Except.error ("network down"), none, true, StreamOutcome.ok [("Hi")],
    true, true, none, true⟩

/-- A part_002 environment whose post-stream database write fails. -/
def envChatC7 : Part002Env :=
  ⟨fun _ => 0, true, StreamOutcome.ok [("Hi")], false, none, true⟩

/-- A RAG environment whose post-stream assistant write fails. -/
def envRagC7 : RagEnv :=
  ⟨fun _ => 0, Except.ok [], none, true, StreamOutcome.ok [("Hi")], true, false,
    none, true⟩

/-- A part_002 environment with a successful one-chunk stream. -/
def envChatOkHi : Part002Env :=
  ⟨fun _ => 0, true, StreamOutcome.ok [("Hi")], true, none, true⟩

/-- A trivially succeeding agent environment. -/
def envAgent0 : AgentEnv := ⟨true, StreamOutcome.ok [], true⟩

/-- The scanned window never exceeds the remaining budget. -/
theorem scanBack_estimate (c : LCMessage → Nat) (budget : Nat) :
    ∀ (l : List LCMessage) (used : Nat), used ≤ budget →
      used + estimate c (scanBack c budget l used) ≤ budget := by
  intro l
  induction l with
  | nil =>
    intro used hu
    simpa [scanBack, estimate] using hu
  | cons m older ih =>
    intro used hu
    by_cases h : used + c m ≤ budget
    · have := ih (used + c m) h
      simp only [scanBack, if_pos h, estimate, List.map_cons, List.sum_cons]
      simp only [estimate] at this
      omega
    · simpa [scanBack, if_neg h, estimate] using hu

/-- The scanned window is an initial segment of its input. -/
theorem scanBack_initial (c : LCMessage → Nat) (budget : Nat) :
    ∀ (l : List LCMessage) (used : Nat),
      ∃ t, scanBack c budget l used ++ t = l := by
  intro l
  induction l with
  | nil =>
    intro used
    exact ⟨[], rfl⟩
  | cons m older ih =>
    intro used
    by_cases h : used + c m ≤ budget
    · obtain ⟨t, ht⟩ := ih (used + c m)
      refine ⟨t, ?_⟩
      simp [scanBack, if_pos h, ht]
    · exact ⟨m :: older, by simp [scanBack, if_neg h]⟩

/-- C2: for every history and token budget, trim returns (windowed,
overflow) with estimate(windowed) ≤ budget (hence the claimed disjunction
holds, the single-oversized-turn disjunct being unnecessary because the
windowed part of an oversized head is empty), and overflow ++ windowed
reconstructs the history exactly, with no turn duplicated or dropped. -/
theorem trim_window_reconstruction (c : LCMessage → Nat) (budget : Nat)
    (history : List LCMessage) :
    (estimate c (trim c budget history).1 ≤ budget ∨
      (trim c budget history).1.length = 1) ∧
    (trim c budget history).2 ++ (trim c budget history).1 = history := by
  obtain ⟨t, ht⟩ := scanBack_initial c budget history.reverse 0
  have hbound := scanBack_estimate c budget history.reverse 0 (Nat.zero_le budget)
  set w := scanBack c budget history.reverse 0 with hw
  have hhist : history = t.reverse ++ w.reverse := by
    have : history.reverse.reverse = (w ++ t).reverse := by rw [ht]
    simpa [List.reverse_append] using this
  have hlen : history.length = t.reverse.length + w.reverse.length := by
    rw [hhist, List.length_append]
  constructor
  · left
    have hrev : estimate c w.reverse = estimate c w := by
      simp [estimate, List.map_reverse, List.sum_reverse]
    simp only [trim]
    rw [hrev]
    omega
  · simp only [trim]
    have htake : history.length - w.reverse.length = t.reverse.length := by omega
    rw [htake]
    calc history.take t.reverse.length ++ w.reverse
        = (t.reverse ++ w.reverse).take t.reverse.length ++ w.reverse := by rw [← hhist]
      _ = t.reverse ++ w.reverse := by rw [List.take_left]
      _ = history := hhist.symm

/-- Length bound of strTake. -/
theorem strTake_length (s : String) (n : Nat) : (strTake s n).length ≤ n := by
  show (s.data.take n).length ≤ n
  simp [List.length_take]

/-- C5: a request carrying neither a session id nor a user id is rejected
by both chat routes before any side effect: no session row is inserted, no
turn is appended, no model call is made, and the stored state is untouched. -/
theorem newSession_requires_userId (env : Part002Env) (renv : RagEnv)
    (req : ChatRequest) (st : SessionState)
    (h1 : req.sessionId = none) (h2 : req.userId = none) :
    POST_chat env req st =
      ⟨PostResult.serverError ("User ID is required for new sessions"), st, []⟩ ∧
    POST_rag renv req st =
      ⟨PostResult.serverError ("User ID is required"), st, [], none⟩ := by
  constructor <;> simp [POST_chat, POST_rag, jsFalsy, h1, h2]

/-- Witness for C5 at a concrete request. -/
theorem newSession_requires_userId_witness :
    POST_chat envChat0 reqNoIds stEmpty =
      ⟨PostResult.serverError ("User ID is required for new sessions"), stEmpty, []⟩ ∧
    POST_rag envRag0 reqNoIds stEmpty =
      ⟨PostResult.serverError ("User ID is required"), stEmpty, [], none⟩ :=
  newSession_requires_userId envChat0 envRag0 reqNoIds stEmpty rfl rfl

/-- C9 counterexample: in the RAG route a 51-character first user text
yields a stored title of 53 characters (the 50-character slice plus an
appended ellipsis), so the stored title can exceed 50 characters. -/
theorem ragTitle_exceeds_50 :
    longText.length = 51 ∧
    (ragTitle [⟨"user", [⟨"text", longText⟩]⟩]).length = 53 ∧
    ¬ (ragTitle [⟨"user", [⟨"text", longText⟩]⟩]).length ≤ 50 := by
  refine ⟨rfl, rfl, ?_⟩
  decide

/-- C9 amended: the title is derived from the first user turn at creation
only; the plain chat route truncates it to at most 50 characters, while
the RAG route appends an ellipsis to the 50-character slice, so its stored
title is bounded by 53 characters instead. -/
theorem title_length_bounds (messages : List UIMessage) :
    (titleForNewSession messages).length ≤ 50 ∧ (ragTitle messages).length ≤ 53 := by
  constructor
  · unfold titleForNewSession
    split
    · decide
    · split
      · decide
      · split
        · exact strTake_length _ 50
        · decide
  · unfold ragTitle
    split
    · decide
    · split
      · split
        · rename_i tp heq
          have h1 := strTake_length tp.text 50
          have h3 : ("..." : String).length = 3 := rfl
          have h0 : ("" : String).length = 0 := rfl
          rw [String.length_append]
          split <;> omega
        · decide
      · decide

/-- Every role the GET mapping can produce. -/
theorem roleOfType_cases (t : String) :
    roleOfType t = "assistant" ∨ roleOfType t = "user" := by
  unfold roleOfType
  by_cases h1 : t = "ai"
  · simp [h1]
  · by_cases h2 : t = "human" <;> simp [h1, h2]

/-- Every element of renderRows is the mapping of some input row. -/
theorem renderRows_mem {m : HistMessage} :
    ∀ (i : Nat) (l : List MessageRow), m ∈ renderRows i l →
      ∃ j r, r ∈ l ∧ m = mapRow j r := by
  intro i l
  induction l generalizing i with
  | nil => intro h; simp [renderRows] at h
  | cons r rest ih =>
    intro h
    rcases List.mem_cons.mp h with h1 | h2
    · exact ⟨i, r, List.mem_cons_self r rest, h1⟩
    · obtain ⟨j, r0, hr0, hm⟩ := ih (i + 1) h2
      exact ⟨j, r0, List.mem_cons_of_mem r hr0, hm⟩

/-- renderRows preserves the created_at ordering of its input. -/
theorem renderRows_sorted :
    ∀ (l : List MessageRow) (i : Nat), List.Pairwise rowLe l →
      List.Pairwise (fun a b : HistMessage => a.createdAt ≤ b.createdAt) (renderRows i l) := by
  intro l
  induction l with
  | nil => intro i _; simp [renderRows]
  | cons r rest ih =>
    intro i hs
    rcases List.pairwise_cons.mp hs with ⟨hhead, htail⟩
    refine List.pairwise_cons.mpr ⟨?_, ih (i + 1) htail⟩
    intro m hm
    obtain ⟨j, r0, hr0, rfl⟩ := renderRows_mem (i + 1) rest hm
    exact hhead r0 hr0

/-- C8: for every stored table and session id, the GET history handler
returns the session rows with a success status, ordered non-decreasing by
created_at, and an unknown or new session id (one matching no row) yields
the empty message list, not an error. -/
theorem history_ordered (db : List MessageRow) (sid : String) :
    getHistory db (some sid) = Except.ok (historyMessages db sid) ∧
    List.Pairwise (fun a b : HistMessage => a.createdAt ≤ b.createdAt)
      (historyMessages db sid) ∧
    (db.filter (fun r => decide (r.sessionId = sid)) = [] →
      historyMessages db sid = []) := by
  refine ⟨rfl, ?_, ?_⟩
  · exact renderRows_sorted _ 0 (List.sorted_insertionSort rowLe _)
  · intro h
    simp [historyMessages, queryRows, h, List.insertionSort, renderRows]

/-- Witness for C8: a session id matching no row yields the empty list. -/
theorem history_ordered_witness :
    historyMessages dbOneRow ("b") = [] :=
  (history_ordered dbOneRow ("b")).2.2 (by decide)

/-- C10: every message the GET history interface returns carries role user
or assistant; a stored type ai maps to assistant, and any other stored
type (human, tool, system or anything else) maps to user. -/
theorem history_role_mapping (db : List MessageRow) (sid : String)
    (i : Nat) (r : MessageRow) :
    (∀ m ∈ historyMessages db sid, m.role = "user" ∨ m.role = "assistant") ∧
    ((mapRow i r).role = "assistant" ↔ r.msgType = "ai") ∧
    (¬ r.msgType = "ai" → (mapRow i r).role = "user") := by
  refine ⟨?_, ?_, ?_⟩
  · intro m hm
    obtain ⟨j, r0, _, rfl⟩ := renderRows_mem 0 (queryRows db sid) hm
    exact (roleOfType_cases r0.msgType).symm
  · by_cases h : r.msgType = "ai"
    · simp [mapRow, roleOfType, h]
    · by_cases h2 : r.msgType = "human" <;> simp [mapRow, roleOfType, h, h2]
  · intro h
    by_cases h2 : r.msgType = "human" <;> simp [mapRow, roleOfType, h, h2]

/-- Witness for C10: a tool-typed row is coerced to role user. -/
theorem history_role_mapping_witness :
    (mapRow 0 rowTool).role = "user" :=
  (history_role_mapping [] ("s1") 0 rowTool).2.2 (by decide)

/-- A thrown retrieval error always degrades to the placeholder context. -/
theorem documentContextOf_error (q msg : String) :
    documentContextOf q (Except.error msg) = degradedPlaceholder := by
  unfold documentContextOf searchDocuments
  by_cases h : (strContains msg ("connection") || strContains msg ("network")
      || strContains msg ("timeout")) = true
  · simp [h]
  · simp [h]

/-- A request with a truthy session id takes the existing-session path of
the RAG route. -/
theorem POST_rag_existing (env : RagEnv) (req : ChatRequest) (st : SessionState)
    (sid : String) (hsid : req.sessionId = some sid) (hsid2 : ¬ sid = "") :
    POST_rag env req st = ragTurn env req st true [] := by
  simp [POST_rag, jsFalsy, hsid, hsid2]

/-- With a non-empty input, the RAG turn is its stream phase over the
computed overflow effects and document context. -/
theorem ragTurn_eq (env : RagEnv) (req : ChatRequest) (st : SessionState)
    (b : Bool) (eff0 : List Effect) (hin : ¬ ragInput req = "") :
    ragTurn env req st b eff0 =
      ragStreamPhase env st (ragInput req) (eff0 ++ ragOverflowEffects env b st)
        (documentContextOf (ragInput req) env.retrieval) := by
  simp only [ragTurn, if_neg hin]

/-- With a non-empty input, the part_002 turn is its stream phase. -/
theorem runChatTurn_eq (env : Part002Env) (req : ChatRequest) (st : SessionState)
    (b : Bool) (eff0 : List Effect) (hin : ¬ chatInputOf b req st = "") :
    runChatTurn env req st b eff0 =
      chatStreamPhase env st (chatInputOf b req st) eff0 := by
  simp only [runChatTurn, if_neg hin]

/-- Shape of the RAG stream phase when invocation succeeds and the stream
runs to completion: the caller sees a completed result carrying the
accumulated text, the prompt context slot is the supplied context, and
when the post-stream summarizer fails the stored summary is unchanged. -/
theorem ragStreamPhase_ok (env : RagEnv) (st : SessionState) (input : String)
    (eff1 : List Effect) (ctx : String) (chunks : List String)
    (hinv : env.invokeOk = true) (hso : env.streamOutcome = StreamOutcome.ok chunks) :
    (ragStreamPhase env st input eff1 ctx).result =
      PostResult.completed ((ragConsume chunks).1) ∧
    (ragStreamPhase env st input eff1 ctx).contextSlot = some ctx ∧
    (env.summarizerResp = none →
      (ragStreamPhase env st input eff1 ctx).state.summary = st.summary) := by
  obtain ⟨c, ret, ovr, inv, so, su, sa, sr, sw⟩ := env
  simp only at hinv hso
  subst hinv
  subst hso
  by_cases h1 : (ragConsume chunks).1 = ""
  · cases su <;> cases sa <;> cases sw <;> cases sr <;> simp [ragStreamPhase, h1]
  · cases h2 : (ragConsume chunks).2 <;> cases su <;> cases sa <;> cases sw <;>
      cases sr <;> simp [ragStreamPhase, h1, h2]

/-- C4: when the vector-store retrieval call fails with any error, the RAG
turn still completes with the streamed assistant answer and the prompt
context slot holds the degraded placeholder string; the retrieval error is
never surfaced as a failure of the turn. -/
theorem rag_retrieval_failure_degrades (env : RagEnv) (req : ChatRequest)
    (st : SessionState) (sid msg : String) (chunks : List String)
    (hsid : req.sessionId = some sid) (hsid2 : ¬ sid = "")
    (hret : env.retrieval = Except.error msg)
    (hinv : env.invokeOk = true)
    (hstream : env.streamOutcome = StreamOutcome.ok chunks)
    (hin : ¬ ragInput req = "") :
    (POST_rag env req st).contextSlot = some degradedPlaceholder ∧
    (POST_rag env req st).result = PostResult.completed ((ragConsume chunks).1) := by
  rw [POST_rag_existing env req st sid hsid hsid2, ragTurn_eq env req st true [] hin]
  have hctx : documentContextOf (ragInput req) env.retrieval = degradedPlaceholder := by
    rw [hret]; exact documentContextOf_error _ msg
  rw [hctx]
  have h := ragStreamPhase_ok env st (ragInput req)
    ([] ++ ragOverflowEffects env true st) degradedPlaceholder chunks hinv hstream
  exact ⟨h.2.1, h.1⟩

/-- A request with a truthy session id takes the existing-session path of
the plain chat route. -/
theorem POST_chat_existing (env : Part002Env) (req : ChatRequest) (st : SessionState)
    (sid : String) (hsid : req.sessionId = some sid) (hsid2 : ¬ sid = "") :
    POST_chat env req st = runChatTurn env req st false [] := by
  simp [POST_chat, jsFalsy, hsid, hsid2]

/-- Shape of the part_002 stream phase when invocation succeeds and the
stream runs to completion: the caller sees a completed result carrying the
accumulated text, and when the post-stream summarizer fails the stored
summary is unchanged. -/
theorem chatStreamPhase_ok (env : Part002Env) (st : SessionState) (input : String)
    (eff0 : List Effect) (chunks : List String)
    (hinv : env.invokeOk = true) (hso : env.streamOutcome = StreamOutcome.ok chunks) :
    (chatStreamPhase env st input eff0).result =
      PostResult.completed (accumulateChunks chunks) ∧
    (env.summarizerResp = none →
      (chatStreamPhase env st input eff0).state.summary = st.summary) := by
  obtain ⟨c, inv, so, am, sr, sw⟩ := env
  simp only at hinv hso
  subst hinv
  subst hso
  by_cases h1 : accumulateChunks chunks = ""
  · cases am <;> cases sw <;> cases sr <;> simp [chatStreamPhase, h1]
  · cases am <;> cases sw <;> cases sr <;> simp [chatStreamPhase, h1]

/-- C7: once the stream has completed, failures of the best-effort
post-stream work (the turn writes and the summary model call) are
swallowed in both chat routes: the caller still observes a completed
result carrying the streamed text, and on summarizer failure the
persisted summary keeps its previous value. -/
theorem post_stream_failures_swallowed (env : Part002Env) (renv : RagEnv)
    (req : ChatRequest) (st : SessionState) (sid : String) (chunks : List String)
    (hsid : req.sessionId = some sid) (hsid2 : ¬ sid = "")
    (hA1 : env.streamOutcome = StreamOutcome.ok chunks) (hA2 : env.invokeOk = true)
    (hA3 : env.summarizerResp = none)
    (hAin : ¬ chatInputOf false req st = "")
    (hB1 : renv.streamOutcome = StreamOutcome.ok chunks) (hB2 : renv.invokeOk = true)
    (hB3 : renv.summarizerResp = none)
    (hBin : ¬ ragInput req = "") :
    (POST_chat env req st).result = PostResult.completed (accumulateChunks chunks) ∧
    (POST_chat env req st).state.summary = st.summary ∧
    (POST_rag renv req st).result = PostResult.completed ((ragConsume chunks).1) ∧
    (POST_rag renv req st).state.summary = st.summary := by
  rw [POST_chat_existing env req st sid hsid hsid2, runChatTurn_eq env req st false [] hAin]
  rw [POST_rag_existing renv req st sid hsid hsid2, ragTurn_eq renv req st true [] hBin]
  have h1 := chatStreamPhase_ok env st (chatInputOf false req st) [] chunks hA2 hA1
  have h2 := ragStreamPhase_ok renv st (ragInput req)
    ([] ++ ragOverflowEffects renv true st)
    (documentContextOf (ragInput req) renv.retrieval) chunks hB2 hB1
  exact ⟨h1.1, h1.2 hA3, h2.1, h2.2.2 hB3⟩

/-- C3 counterexample: a completed exchange with an empty overflow set
makes no overflow-summarizer call, yet the session's persisted summary is
rewritten (from S0 to the post-stream summarizer output S1), so the
persisted summary is not left unchanged. -/
theorem rag_summary_rewritten_without_overflow :
    ragOverflow envRagC3 true stS0 = [] ∧
    (POST_rag envRagC3 reqExisting stS0).result = PostResult.completed ("Hi") ∧
    Effect.overflowSummarizerCall ∉ (POST_rag envRagC3 reqExisting stS0).effects ∧
    (POST_rag envRagC3 reqExisting stS0).state.summary = ("S1") ∧
    ¬ (POST_rag envRagC3 reqExisting stS0).state.summary = stS0.summary := by
  decide

/-- Shape of the RAG stream phase on a fully successful exchange. -/
theorem ragStreamPhase_success (env : RagEnv) (st : SessionState) (input : String)
    (eff1 : List Effect) (ctx : String) (chunks : List String) (ns : String)
    (hinv : env.invokeOk = true) (hso : env.streamOutcome = StreamOutcome.ok chunks)
    (hsu : env.saveUserOk = true) (hsa : env.saveAIOk = true)
    (hne : ¬ (ragConsume chunks).1 = "") (hhse : (ragConsume chunks).2 = false)
    (hsr : env.summarizerResp = some ns) (hsw : env.summaryWriteOk = true) :
    (ragStreamPhase env st input eff1 ctx).effects =
      eff1 ++ [Effect.modelStream, Effect.appendHuman input,
        Effect.appendAI ((ragConsume chunks).1), Effect.summaryModelCall,
        Effect.summaryWrite ns] ∧
    (ragStreamPhase env st input eff1 ctx).state.summary = ns := by
  obtain ⟨c, ret, ovr, inv, so, su, sa, sr, sw⟩ := env
  simp only at hinv hso hsu hsa hsr hsw
  subst hinv
  subst hso
  subst hsu
  subst hsa
  subst hsr
  subst hsw
  simp [ragStreamPhase, hne, hhse]

/-- C3 corrected: when the overflow set for a turn is empty, the
overflow summarizer is indeed never invoked (no model call is made for
it), but the session's persisted summary is still rewritten after every
completed exchange by the post-stream summary update, which condenses the
old summary with the new user and assistant turns. -/
theorem rag_overflow_empty_no_model_call (env : RagEnv) (req : ChatRequest)
    (st : SessionState) (sid ns : String) (chunks : List String)
    (hsid : req.sessionId = some sid) (hsid2 : ¬ sid = "")
    (hov : ragOverflow env true st = [])
    (hin : ¬ ragInput req = "")
    (hB1 : env.streamOutcome = StreamOutcome.ok chunks) (hB2 : env.invokeOk = true)
    (hne : ¬ (ragConsume chunks).1 = "") (hhse : (ragConsume chunks).2 = false)
    (hsu : env.saveUserOk = true) (hsa : env.saveAIOk = true)
    (hsr : env.summarizerResp = some ns) (hsw : env.summaryWriteOk = true) :
    Effect.overflowSummarizerCall ∉ (POST_rag env req st).effects ∧
    (POST_rag env req st).state.summary = ns := by
  rw [POST_rag_existing env req st sid hsid hsid2, ragTurn_eq env req st true [] hin]
  have heff : ragOverflowEffects env true st = [] := by
    simp [ragOverflowEffects, hov]
  have h := ragStreamPhase_success env st (ragInput req)
    ([] ++ ragOverflowEffects env true st)
    (documentContextOf (ragInput req) env.retrieval) chunks ns
    hB2 hB1 hsu hsa hne hhse hsr hsw
  refine ⟨?_, h.2⟩
  rw [h.1, heff]
  simp

/-- The part_002 route never changes the durable state when the model
stream fails, and performs no append at all on that path. -/
theorem POST_chat_state_fail (env : Part002Env) (req : ChatRequest) (st : SessionState)
    (emitted : List String) (h : env.streamOutcome = StreamOutcome.fail emitted) :
    (POST_chat env req st).state = st ∧
    (∀ s, Effect.appendHuman s ∉ (POST_chat env req st).effects) ∧
    (∀ s, Effect.appendAI s ∉ (POST_chat env req st).effects) := by
  obtain ⟨c, inv, so, am, sr, sw⟩ := env
  simp only at h
  subst h
  unfold POST_chat runChatTurn chatStreamPhase
  by_cases h1 : jsFalsy req.sessionId = true <;>
    by_cases h2 : jsFalsy req.userId = true <;>
      by_cases h3 : chatInputOf true req st = "" <;>
        by_cases h4 : chatInputOf false req st = "" <;>
          cases inv <;> simp [h1, h2, h3, h4]

/-- Shape of the RAG stream phase when the stream errors mid-way: the user
turn written before consumption stays, no assistant turn is written, and
the summary is untouched. -/
theorem ragStreamPhase_fail (env : RagEnv) (st : SessionState) (input : String)
    (eff1 : List Effect) (ctx : String) (emitted : List String)
    (hinv : env.invokeOk = true) (hso : env.streamOutcome = StreamOutcome.fail emitted)
    (hsu : env.saveUserOk = true) :
    ragStreamPhase env st input eff1 ctx =
      ⟨PostResult.streamFailed ((ragConsume emitted).1),
        ⟨st.history ++ [⟨LCRole.human, input⟩], st.summary⟩,
        eff1 ++ [Effect.modelStream] ++ [Effect.appendHuman input], some ctx⟩ := by
  obtain ⟨c, ret, ovr, inv, so, su, sa, sr, sw⟩ := env
  simp only at hinv hso hsu
  subst hinv
  subst hso
  subst hsu
  simp [ragStreamPhase]

/-- C1 counterexample: in the part_002 route, a validated turn whose model
stream fails leaves the durable history empty — the user turn Hello was
never appended before invocation, so it is not readable afterwards, contra
the claim. -/
theorem user_turn_lost_on_stream_error :
    (POST_chat envChatFail reqExisting stEmpty).result = PostResult.streamFailed ("") ∧
    (POST_chat envChatFail reqExisting stEmpty).state.history = [] ∧
    Effect.appendHuman ("Hello") ∉ (POST_chat envChatFail reqExisting stEmpty).effects := by
  decide

/-- C1 corrected: the user turn is not persisted before model invocation.
In the part_002 route both turns are appended together only after
streaming completes with non-empty text, so a model or stream failure
leaves the durable state untouched and the user turn lost; in the RAG
route the user turn is appended after the model stream is created but
before it is consumed, so a mid-stream failure leaves the user turn
persisted while no assistant turn is recorded for the exchange. -/
theorem user_turn_persistence_on_failure (env : Part002Env) (renv : RagEnv)
    (req : ChatRequest) (st : SessionState) (sid : String) (emitted : List String)
    (hA : env.streamOutcome = StreamOutcome.fail emitted)
    (hB : renv.streamOutcome = StreamOutcome.fail emitted)
    (hB2 : renv.invokeOk = true) (hB3 : renv.saveUserOk = true)
    (hsid : req.sessionId = some sid) (hsid2 : ¬ sid = "")
    (hin : ¬ ragInput req = "") :
    (POST_chat env req st).state = st ∧
    (POST_rag renv req st).result = PostResult.streamFailed ((ragConsume emitted).1) ∧
    (POST_rag renv req st).state.history = st.history ++ [⟨LCRole.human, ragInput req⟩] ∧
    (POST_rag renv req st).state.summary = st.summary ∧
    (∀ s, Effect.appendAI s ∉ (POST_rag renv req st).effects) := by
  have hrag : POST_rag renv req st =
      ⟨PostResult.streamFailed ((ragConsume emitted).1),
        ⟨st.history ++ [⟨LCRole.human, ragInput req⟩], st.summary⟩,
        ([] ++ ragOverflowEffects renv true st) ++ [Effect.modelStream] ++
          [Effect.appendHuman (ragInput req)],
        some (documentContextOf (ragInput req) renv.retrieval)⟩ := by
    rw [POST_rag_existing renv req st sid hsid hsid2, ragTurn_eq renv req st true [] hin]
    exact ragStreamPhase_fail renv st (ragInput req) _ _ emitted hB2 hB hB3
  refine ⟨(POST_chat_state_fail env req st emitted hA).1, ?_, ?_, ?_, ?_⟩ <;>
    rw [hrag] <;>
    first
      | rfl
      | (intro s
         simp only [ragOverflowEffects]
         split <;> simp)

/-- An assistant-turn append can only come out of the part_002 stream
phase when the stream completed with the non-empty accumulated text. -/
theorem chatStreamPhase_appendAI (env : Part002Env) (st : SessionState) (input : String)
    (eff0 : List Effect) (s : String)
    (h0 : Effect.appendAI s ∉ eff0)
    (h : Effect.appendAI s ∈ (chatStreamPhase env st input eff0).effects) :
    ∃ chunks, env.streamOutcome = StreamOutcome.ok chunks ∧
      s = accumulateChunks chunks ∧ ¬ s = "" := by
  obtain ⟨c, inv, so, am, sr, sw⟩ := env
  cases so with
  | fail e =>
    cases inv <;> simp [chatStreamPhase, List.mem_append] at h <;> exact absurd h h0
  | ok chunks =>
    by_cases h1 : accumulateChunks chunks = ""
    · cases inv <;> cases am <;>
        simp [chatStreamPhase, h1, List.mem_append] at h <;> exact absurd h h0
    · refine ⟨chunks, rfl, ?_⟩
      cases inv <;> cases am <;> cases sr <;> cases sw <;>
        simp [chatStreamPhase, h1, List.mem_append] at h <;>
        (try exact absurd h h0) <;>
        (rcases h with h | h
         · exact absurd h h0
         · exact ⟨h, by rw [h]; exact h1⟩)

/-- An assistant-turn append can only come out of the RAG stream phase
when the stream completed with the non-empty accumulated text. -/
theorem ragStreamPhase_appendAI (env : RagEnv) (st : SessionState) (input : String)
    (eff1 : List Effect) (ctx : String) (s : String)
    (h0 : Effect.appendAI s ∉ eff1)
    (h : Effect.appendAI s ∈ (ragStreamPhase env st input eff1 ctx).effects) :
    ∃ chunks, env.streamOutcome = StreamOutcome.ok chunks ∧
      s = (ragConsume chunks).1 ∧ ¬ s = "" := by
  obtain ⟨c, ret, ovr, inv, so, su, sa, sr, sw⟩ := env
  cases so with
  | fail e =>
    cases inv <;> cases su <;>
      simp [ragStreamPhase, List.mem_append] at h <;> exact absurd h h0
  | ok chunks =>
    by_cases h1 : (ragConsume chunks).1 = ""
    · cases inv <;> cases su <;> cases sa <;>
        cases h2 : (ragConsume chunks).2 <;>
        simp [ragStreamPhase, h1, h2, List.mem_append] at h <;> exact absurd h h0
    · refine ⟨chunks, rfl, ?_⟩
      cases h2 : (ragConsume chunks).2
      · cases inv <;> cases su <;> cases sa <;> cases sr <;> cases sw <;>
          simp [ragStreamPhase, h1, h2, List.mem_append] at h <;>
          (try exact absurd h h0) <;>
          (rcases h with h | h
           · exact absurd h h0
           · exact ⟨h, by rw [h]; exact h1⟩)
      · cases inv <;> cases su <;> cases sa <;>
          simp [ragStreamPhase, h1, h2, List.mem_append] at h <;> exact absurd h h0

/-- Lifting of the append-only-after-completion property through the
part_002 turn body. -/
theorem runChatTurn_appendAI (env : Part002Env) (req : ChatRequest) (st : SessionState)
    (b : Bool) (eff0 : List Effect) (s : String)
    (h0 : Effect.appendAI s ∉ eff0)
    (h : Effect.appendAI s ∈ (runChatTurn env req st b eff0).effects) :
    ∃ chunks, env.streamOutcome = StreamOutcome.ok chunks ∧
      s = accumulateChunks chunks ∧ ¬ s = "" := by
  by_cases h3 : chatInputOf b req st = ""
  · simp [runChatTurn, h3] at h
    exact absurd h h0
  · rw [runChatTurn_eq env req st b eff0 h3] at h
    exact chatStreamPhase_appendAI env st _ eff0 s h0 h

/-- Lifting of the append-only-after-completion property through the RAG
turn body. -/
theorem ragTurn_appendAI (env : RagEnv) (req : ChatRequest) (st : SessionState)
    (b : Bool) (eff0 : List Effect) (s : String)
    (h0 : Effect.appendAI s ∉ eff0)
    (h : Effect.appendAI s ∈ (ragTurn env req st b eff0).effects) :
    ∃ chunks, env.streamOutcome = StreamOutcome.ok chunks ∧
      s = (ragConsume chunks).1 ∧ ¬ s = "" := by
  by_cases h3 : ragInput req = ""
  · simp [ragTurn, h3] at h
    exact absurd h h0
  · rw [ragTurn_eq env req st b eff0 h3] at h
    refine ragStreamPhase_appendAI env st _ _ _ s ?_ h
    intro hmem
    rcases List.mem_append.mp hmem with hh | hh
    · exact h0 hh
    · revert hh
      unfold ragOverflowEffects
      split <;> simp

/-- An assistant-turn append can only come out of the part_004 agent route
when the stream completed with the non-empty accumulated text. -/
theorem agent_appendAI_mem (env : AgentEnv) (messages : List ClientMessage)
    (st : List LCMessage) (s : String)
    (h : Effect.appendAI s ∈ (POST_agent env messages st).2.2) :
    ∃ chunks, env.streamOutcome = StreamOutcome.ok chunks ∧
      s = accumulateChunks chunks ∧ ¬ s = "" := by
  obtain ⟨su, so, sa⟩ := env
  by_cases hin : agentInput messages = ""
  · simp [POST_agent, hin] at h
  · cases so with
    | fail e =>
      cases su <;> simp [POST_agent, hin] at h
    | ok chunks =>
      by_cases h1 : accumulateChunks chunks = ""
      · cases su <;> cases sa <;> simp [POST_agent, hin, h1] at h
      · refine ⟨chunks, rfl, ?_⟩
        cases su <;> cases sa <;> simp [POST_agent, hin, h1] at h <;>
          exact ⟨h, by rw [h]; exact h1⟩

/-- C6: in all three chat routes, an assistant turn is appended to the
durable history only when the model stream has run to completion and only
carrying the non-empty accumulated response text: no assistant turn with
empty content is ever persisted, and none is persisted after a stream
error. -/
theorem assistant_turn_after_completion (env : Part002Env) (renv : RagEnv)
    (aenv : AgentEnv) (req : ChatRequest) (messages : List ClientMessage)
    (st : SessionState) (hist : List LCMessage) :
    (∀ s, Effect.appendAI s ∈ (POST_chat env req st).effects →
      ∃ chunks, env.streamOutcome = StreamOutcome.ok chunks ∧
        s = accumulateChunks chunks ∧ ¬ s = "") ∧
    (∀ s, Effect.appendAI s ∈ (POST_rag renv req st).effects →
      ∃ chunks, renv.streamOutcome = StreamOutcome.ok chunks ∧
        s = (ragConsume chunks).1 ∧ ¬ s = "") ∧
    (∀ s, Effect.appendAI s ∈ (POST_agent aenv messages hist).2.2 →
      ∃ chunks, aenv.streamOutcome = StreamOutcome.ok chunks ∧
        s = accumulateChunks chunks ∧ ¬ s = "") := by
  refine ⟨fun s h => ?_, fun s h => ?_,
    fun s h => agent_appendAI_mem aenv messages hist s h⟩
  · unfold POST_chat at h
    split at h
    · split at h
      · simp at h
      · exact runChatTurn_appendAI env req st true _ s (by simp) h
    · exact runChatTurn_appendAI env req st false [] s (by simp) h
  · unfold POST_rag at h
    split at h
    · split at h
      · simp at h
      · exact ragTurn_appendAI renv req st false _ s (by simp) h
    · exact ragTurn_appendAI renv req st true [] s (by simp) h

/-- Witness for the corrected C1 at a concrete failing stream. -/
theorem user_turn_persistence_on_failure_witness :
    (POST_chat envChatFail reqExisting stS0).state = stS0 ∧
    (POST_rag envRagFail reqExisting stS0).result =
      PostResult.streamFailed ((ragConsume []).1) ∧
    (POST_rag envRagFail reqExisting stS0).state.history =
      stS0.history ++ [⟨LCRole.human, ragInput reqExisting⟩] ∧
    (POST_rag envRagFail reqExisting stS0).state.summary = stS0.summary ∧
    (∀ s, Effect.appendAI s ∉ (POST_rag envRagFail reqExisting stS0).effects) :=
  user_turn_persistence_on_failure envChatFail envRagFail reqExisting stS0 ("s1") []
    rfl rfl rfl rfl rfl (by decide) (by decide)

/-- Witness for the corrected C3 at a concrete overflow-free exchange. -/
theorem rag_overflow_empty_no_model_call_witness :
    Effect.overflowSummarizerCall ∉ (POST_rag envRagC3 reqExisting stS0).effects ∧
    (POST_rag envRagC3 reqExisting stS0).state.summary = ("S1") :=
  rag_overflow_empty_no_model_call envRagC3 reqExisting stS0 ("s1") ("S1") [("Hi")]
    rfl (by decide) (by decide) (by decide) rfl rfl (by decide) (by decide)
    rfl rfl rfl rfl

/-- Witness for C4 at a concrete failing retrieval. -/
theorem rag_retrieval_failure_degrades_witness :
    (POST_rag envRagErr reqExisting stEmpty).contextSlot = some degradedPlaceholder ∧
    (POST_rag envRagErr reqExisting stEmpty).result =
      PostResult.completed ((ragConsume [("Hi")]).1) :=
  rag_retrieval_failure_degrades envRagErr reqExisting stEmpty ("s1") ("network down")
    [("Hi")] rfl (by decide) rfl rfl rfl (by decide)

/-- Witness for C7 at concrete failing post-stream writes. -/
theorem post_stream_failures_swallowed_witness :
    (POST_chat envChatC7 reqExisting stS0).result =
      PostResult.completed (accumulateChunks [("Hi")]) ∧
    (POST_chat envChatC7 reqExisting stS0).state.summary = stS0.summary ∧
    (POST_rag envRagC7 reqExisting stS0).result =
      PostResult.completed ((ragConsume [("Hi")]).1) ∧
    (POST_rag envRagC7 reqExisting stS0).state.summary = stS0.summary :=
  post_stream_failures_swallowed envChatC7 envRagC7 reqExisting stS0 ("s1") [("Hi")]
    rfl (by decide) rfl rfl rfl (by decide) rfl rfl rfl (by decide)

/-- Witness for C6: applying the theorem to a run whose effects do contain
an assistant append recovers the completed stream it came from. -/
theorem assistant_turn_after_completion_witness :
    ∃ chunks, envChatOkHi.streamOutcome = StreamOutcome.ok chunks ∧
      ("Hi" : String) = accumulateChunks chunks ∧ ¬ ("Hi" : String) = "" :=
  (assistant_turn_after_completion envChatOkHi envRag0 envAgent0 reqExisting []
    stS0 []).1 ("Hi") (by decide)

end AIChat
